import Mathlib

/- Verification development for the IPC core of the electron-sprout
   repository: the wire codec and the ChannelServer / ChannelClient /
   IPCServer machinery of
   packages/electron-runtime/src/core/base/parts/ipc/common/ipc.ts.
   Line numbers in comments refer to that file. -/

namespace ElectronSprout

/-! ### Wire codec: serialize / deserialize (ipc.ts lines 199-327) -/

/-- Values handled by the wire codec, one constructor per DataType tag
(lines 231-238).  A node buffer (tag 2) and a VSBuffer (tag 3) are byte
lists.  Modelled from the spec: JSON.stringify and JSON.parse are not
under src, and the spec (section 4.1) encodes a plain record as its JSON
text, so the obj case carries that text; likewise a string value is kept
as the text that VSBuffer.fromString encodes. -/
inductive Data where
  | undefined : Data
  | str : String → Data
  | buf : List Nat → Data
  | vsbuf : List Nat → Data
  | arr : List Data → Data
  | obj : String → Data

/-- Modelled from the spec: section 6 fixes the string payload encoding as
UTF-8 (VSBuffer.fromString is not under src).  Standard UTF-8 encoding of
one Unicode scalar value. -/
def utf8EncodeNat (c : Nat) : List Nat :=
  if c < 0x80 then [c]
  else if c < 0x800 then [0xC0 + c / 0x40, 0x80 + c % 0x40]
  else if c < 0x10000 then
    [0xE0 + c / 0x1000, 0x80 + c / 0x40 % 0x40, 0x80 + c % 0x40]
  else
    [0xF0 + c / 0x40000, 0x80 + c / 0x1000 % 0x40, 0x80 + c / 0x40 % 0x40,
      0x80 + c % 0x40]

/-- UTF-8 bytes of a string (model of VSBuffer.fromString, see above). -/
def utf8Encode (s : String) : List Nat :=
  s.data.flatMap fun c => utf8EncodeNat c.toNat

/-- Decoding of one UTF-8 scalar value from the head of a byte list
(model of VSBuffer.toString, see above). -/
def utf8DecodeOne : List Nat → Option (Nat × List Nat)
  | [] => none
  | b0 :: rest =>
    if b0 < 0x80 then some (b0, rest)
    else if b0 < 0xC0 then none
    else if b0 < 0xE0 then
      match rest with
      | b1 :: rest1 => some ((b0 - 0xC0) * 0x40 + (b1 - 0x80), rest1)
      | [] => none
    else if b0 < 0xF0 then
      match rest with
      | b1 :: b2 :: rest2 =>
        some ((b0 - 0xE0) * 0x1000 + (b1 - 0x80) * 0x40 + (b2 - 0x80), rest2)
      | _ => none
    else
      match rest with
      | b1 :: b2 :: b3 :: rest3 =>
        some ((b0 - 0xF0) * 0x40000 + (b1 - 0x80) * 0x1000 +
          (b2 - 0x80) * 0x40 + (b3 - 0x80), rest3)
      | _ => none

/-- Fueled UTF-8 decoding loop; each scalar value consumes at least one
byte, so fuel equal to the byte count suffices. -/
def utf8DecodeChars : Nat → List Nat → Option (List Char)
  | _, [] => some []
  | 0, _ :: _ => none
  | fuel + 1, b :: bs =>
    match utf8DecodeOne (b :: bs) with
    | some (c, rest) =>
      match utf8DecodeChars fuel rest with
      | some cs => some (Char.ofNat c :: cs)
      | none => none
    | none => none

/-- Model of VSBuffer.toString on a byte list: decode all UTF-8 scalar
values.  Invalid byte sequences are modelled as failure (the claims never
exercise them). -/
def utf8DecodeBytes (bs : List Nat) : Option String :=
  (utf8DecodeChars bs.length bs).map String.mk

/-- The 4-byte big-endian size prefix written by createSizeBuffer
(lines 240-244); the writer is only ever handed sizes below 2 ^ 32. -/
def writeUInt32BE (n : Nat) : List Nat :=
  [n / 0x1000000 % 0x100, n / 0x10000 % 0x100, n / 0x100 % 0x100, n % 0x100]

/-- The 4-byte big-endian size read by readSizeBuffer (lines 246-248);
fewer than four remaining bytes is an out-of-range read, modelled as
failure. -/
def readSize : List Nat → Option (Nat × List Nat)
  | b0 :: b1 :: b2 :: b3 :: rest =>
    some (b0 * 0x1000000 + b1 * 0x10000 + b2 * 0x100 + b3, rest)
  | _ => none

/-- Model of BufferReader.read (lines 207-217) for a payload of count
bytes; a read beyond the end of the message is modelled as failure. -/
def readBytes (count : Nat) (bs : List Nat) : Option (List Nat × List Nat) :=
  if count ≤ bs.length then some (bs.take count, bs.drop count) else none

mutual

/-- Translation of serialize (lines 268-298): a one-byte DataType tag,
then for each case the 4-byte big-endian length and the payload.  The
array case writes the element count and then each element in order. -/
def serializeValue : Data → List Nat
  | .undefined => [0]
  | .str s => 1 :: (writeUInt32BE (utf8Encode s).length ++ utf8Encode s)
  | .buf bs => 2 :: (writeUInt32BE bs.length ++ bs)
  | .vsbuf bs => 3 :: (writeUInt32BE bs.length ++ bs)
  | .arr xs => 4 :: (writeUInt32BE xs.length ++ serializeElems xs)
  | .obj j => 5 :: (writeUInt32BE (utf8Encode j).length ++ utf8Encode j)

/-- The loop of the array case of serialize (lines 289-291). -/
def serializeElems : List Data → List Nat
  | [] => []
  | d :: ds => serializeValue d ++ serializeElems ds

end

/-- Translation of deserialize (lines 300-327), fused into a counted
reader so that the recursion is structural on the fuel: deserializeMany
fuel n bs reads n consecutive serialized values (the source reads one
value at a time and, in the array case at lines 312-321, loops over the
announced element count; reading the elements and then continuing with
the rest of the message is exactly this counted reader).  The default
branch of the switch (lines 324-325) makes an unknown tag yield the
value undefined with only the tag byte consumed. -/
def deserializeMany : Nat → Nat → List Nat → Option (List Data × List Nat)
  | _, 0, bs => some ([], bs)
  | 0, _ + 1, _ => none
  | fuel + 1, n + 1, bs =>
    match bs with
    | [] => none
    | t :: rest =>
      let first : Option (Data × List Nat) :=
        if t = 0 then some (.undefined, rest)
        else if t = 1 then
          match readSize rest with
          | some (len, bs1) =>
            match readBytes len bs1 with
            | some (payload, bs2) =>
              match utf8DecodeBytes payload with
              | some s => some (.str s, bs2)
              | none => none
            | none => none
          | none => none
        else if t = 2 then
          match readSize rest with
          | some (len, bs1) =>
            match readBytes len bs1 with
            | some (payload, bs2) => some (.buf payload, bs2)
            | none => none
          | none => none
        else if t = 3 then
          match readSize rest with
          | some (len, bs1) =>
            match readBytes len bs1 with
            | some (payload, bs2) => some (.vsbuf payload, bs2)
            | none => none
          | none => none
        else if t = 4 then
          match readSize rest with
          | some (len, bs1) =>
            match deserializeMany fuel len bs1 with
            | some (elems, bs2) => some (.arr elems, bs2)
            | none => none
          | none => none
        else if t = 5 then
          match readSize rest with
          | some (len, bs1) =>
            match readBytes len bs1 with
            | some (payload, bs2) =>
              match utf8DecodeBytes payload with
              | some s => some (.obj s, bs2)
              | none => none
            | none => none
          | none => none
        else some (.undefined, rest)
      match first with
      | some (d, bs2) =>
        match deserializeMany fuel n bs2 with
        | some (ds, bs3) => some (d :: ds, bs3)
        | none => none
      | none => none

/-- Reading of one serialized value, the signature of the source
deserialize. -/
def deserialize (fuel : Nat) (bs : List Nat) : Option (Data × List Nat) :=
  match deserializeMany fuel 1 bs with
  | some ([d], rest) => some (d, rest)
  | _ => none

mutual

/-- Fuel sufficient for deserializing a value: its node count. -/
def fuelNeeded : Data → Nat
  | .arr xs => 1 + fuelNeededList xs
  | _ => 1

/-- Fuel sufficient for deserializing a list of values. -/
def fuelNeededList : List Data → Nat
  | [] => 0
  | d :: ds => fuelNeeded d + fuelNeededList ds

end

mutual

/-- Well-formed wire value: every length written by the codec fits the
4-byte size prefix and buffer payloads are bytes. -/
def sizeOk : Data → Bool
  | .undefined => true
  | .str s => decide ((utf8Encode s).length < 2 ^ 32)
  | .buf bs => decide (bs.length < 2 ^ 32) && bs.all fun b => decide (b < 256)
  | .vsbuf bs => decide (bs.length < 2 ^ 32) && bs.all fun b => decide (b < 256)
  | .arr xs => decide (xs.length < 2 ^ 32) && sizeOkList xs
  | .obj j => decide ((utf8Encode j).length < 2 ^ 32)

/-- Well-formedness of a list of wire values. -/
def sizeOkList : List Data → Bool
  | [] => true
  | d :: ds => sizeOk d && sizeOkList ds

end

/-! ### Association-list model of the JS Map -/

/-- Map.get: the value stored under a key. -/
def alGet {κ β : Type} [DecidableEq κ] (k : κ) : List (κ × β) → Option β
  | [] => none
  | (k1, v) :: rest => if k1 = k then some v else alGet k rest

/-- Map.set: replace in place, or append a fresh binding. -/
def alSet {κ β : Type} [DecidableEq κ] (k : κ) (v : β) :
    List (κ × β) → List (κ × β)
  | [] => [(k, v)]
  | (k1, v1) :: rest =>
    if k1 = k then (k, v) :: rest else (k1, v1) :: alSet k v rest

/-- Map.delete: drop the binding under a key. -/
def alRemove {κ β : Type} [DecidableEq κ] (k : κ) (l : List (κ × β)) :
    List (κ × β) :=
  l.filter fun p => decide (p.1 ≠ k)

/-- Set.add on a key set: a member stays put, a fresh key is appended. -/
def addActive (l : List Nat) (id : Nat) : List Nat :=
  if id ∈ l then l else l ++ [id]

/-! ### Protocol values, requests and responses (ipc.ts lines 58-123) -/

/-- Payload values as far as the claims need them. -/
inductive Val where
  | vundefined : Val
  | vstr : String → Val
  | vnum : Nat → Val
deriving DecidableEq

/-- Stack of a thrown Error as the server reads it at lines 476-480:
either a string (which has a split method) or a value without one
(forwarded raw). -/
inductive StackRep where
  | strStack : String → StackRep
  | oddStack : Val → StackRep
deriving DecidableEq

/-- An Error instance as the rejection handler inspects it
(lines 470-483). -/
structure JsError where
  message : String
  name : String
  stack : Option StackRep
deriving DecidableEq

/-- A promise rejection value: the instanceof Error test at line 470
separates Error instances from arbitrary payloads. -/
inductive RejectVal where
  | errVal : JsError → RejectVal
  | objVal : Val → RejectVal
deriving DecidableEq

/-- Settled result of channel.call.  A synchronous throw is normalized
into a rejection by the try/catch at lines 447-456, so one outcome type
covers both. -/
inductive Outcome where
  | resolved : Val → Outcome
  | rejected : RejectVal → Outcome
deriving DecidableEq

/-- Stack field of a PromiseError response (IRawPromiseErrorResponse,
lines 101-105; the raw alternative arises from line 479). -/
inductive StackField where
  | undefined : StackField
  | lines : List String → StackField
  | raw : Val → StackField
deriving DecidableEq

/-- Data record of a PromiseError response. -/
structure ErrData where
  message : String
  name : String
  stack : StackField
deriving DecidableEq

/-- Requests (IRawRequest, lines 65-85). -/
inductive RawRequest where
  | promiseReq : Nat → String → String → Val → RawRequest
  | promiseCancel : Nat → RawRequest
  | eventListen : Nat → String → String → Val → RawRequest
  | eventDispose : Nat → RawRequest
deriving DecidableEq

/-- Responses (IRawResponse, lines 95-121); init is the Initialize
response. -/
inductive RawResponse where
  | init : RawResponse
  | promiseSuccess : Nat → Val → RawResponse
  | promiseError : Nat → ErrData → RawResponse
  | promiseErrorObj : Nat → Val → RawResponse
  | eventFire : Nat → Val → RawResponse
deriving DecidableEq

/-- JS String.split on the newline character: every newline separates,
empty pieces are kept. -/
def splitNlChars : List Char → List (List Char)
  | [] => [[]]
  | c :: rest =>
    match splitNlChars rest with
    | [] => [[]]
    | piece :: pieces =>
      if c = '\n' then [] :: piece :: pieces else (c :: piece) :: pieces

/-- Model of the JS expression stack.split applied to a newline. -/
def jsSplitNewline (s : String) : List String :=
  (splitNlChars s.data).map String.mk

/-- The stack field sent for a rejected Error (lines 476-480): split the
string stack on newlines, forward a stack without a split method raw,
send undefined when the stack is absent. -/
def stackFieldOf : Option StackRep → StackField
  | none => .undefined
  | some (.strStack s) => .lines (jsSplitNewline s)
  | some (.oddStack v) => .raw v

/-- The response sent when the promise obtained from channel.call
settles (lines 460-494). -/
def settleResponse (id : Nat) : Outcome → RawResponse
  | .resolved v => .promiseSuccess id v
  | .rejected (.errVal e) => .promiseError id ⟨e.message, e.name, stackFieldOf e.stack⟩
  | .rejected (.objVal v) => .promiseErrorObj id v

/-! ### ChannelServer (ipc.ts lines 334-590) -/

/-- A registered IServerChannel.  call gives the settled outcome of
channel.call(ctx, name, arg, token); the model runs the single-threaded
settlement to completion (spec section 5).  Event emissions past the
subscription bookkeeping are outside the claims. -/
structure ServerChannel where
  call : String → String → Val → Outcome

/-- A request that may sit in the pending queue (the
IRawPromiseRequest | IRawEventListenRequest union of line 330). -/
inductive PendReq where
  | pPromise : Nat → String → String → Val → PendReq
  | pEvent : Nat → String → String → Val → PendReq
deriving DecidableEq

/-- Channel name of a queued request. -/
def PendReq.channelName : PendReq → String
  | .pPromise _ cn _ _ => cn
  | .pEvent _ cn _ _ => cn

/-- One entry of the pending queue (PendingRequest, lines 329-332); the
timer id stands for the setTimeout handle. -/
structure PendingEntry where
  request : PendReq
  timerId : Nat
deriving DecidableEq

/-- The mutable state of a ChannelServer (lines 337-350).  armedTimers
holds the live setTimeout handles together with the request captured by
each timer closure; activeRequests keeps the ids under which disposables
are stored. -/
structure ServerState where
  ctx : String
  timeoutDelay : Nat
  channels : List (String × ServerChannel)
  activeRequests : List Nat
  protocolListenerAttached : Bool
  pendingRequests : List (String × List PendingEntry)
  armedTimers : List (Nat × PendReq)
  nextTimerId : Nat

/-- A freshly constructed ChannelServer (lines 347-356): transport
listener attached, empty maps, and the Initialize response sent at once. -/
def newServer (ctx : String) (timeoutDelay : Nat) :
    ServerState × List RawResponse :=
  ({ ctx := ctx, timeoutDelay := timeoutDelay, channels := [],
     activeRequests := [], protocolListenerAttached := true,
     pendingRequests := [], armedTimers := [], nextTimerId := 0 },
   [.init])

/-- Responses produced by the pending-request timeout callback
(lines 540-554): for a Promise request one PromiseError whose data names
the channel and the configured delay; for an EventListen request nothing
beyond the console.error. -/
def pendingTimeoutResponses (timeoutDelay : Nat) : PendReq → List RawResponse
  | .pPromise id channelName _ _ =>
    [.promiseError id
      ⟨"Channel name \x27" ++ channelName ++ "\x27 timed out after " ++
        toString timeoutDelay ++ "ms", "Unknown channel", .undefined⟩]
  | .pEvent _ _ _ _ => []

/-- Translation of ChannelServer.collectPendingRequest (lines 530-557):
append the request to the queue of its channel name and arm a fresh
one-shot timer whose closure captures the request. -/
def collectPendingRequest (s : ServerState) (request : PendReq) : ServerState :=
  let queue := (alGet request.channelName s.pendingRequests).getD []
  let tid := s.nextTimerId
  { s with
    pendingRequests :=
      alSet request.channelName (queue ++ [⟨request, tid⟩]) s.pendingRequests,
    armedTimers := s.armedTimers ++ [(tid, request)],
    nextTimerId := tid + 1 }

/-- Firing of an armed pending-request timer: run the setTimeout
callback of lines 540-554 on the captured request and disarm the handle
(setTimeout is one-shot).  The callback sends its responses and touches
no other server state. -/
def fireTimer (s : ServerState) (tid : Nat) : ServerState × List RawResponse :=
  match alGet tid s.armedTimers with
  | none => (s, [])
  | some request =>
    ({ s with armedTimers := s.armedTimers.filter fun p => decide (p.1 ≠ tid) },
      pendingTimeoutResponses s.timeoutDelay request)

/-- Translation of ChannelServer.onPromise (lines 437-498): an unknown
channel queues the request; otherwise the call is invoked, the cancel
disposable is stored under the id, and when the promise settles the
response is sent and the id removed again (the model delivers the
settlement immediately, spec section 5). -/
def onPromise (s : ServerState) (id : Nat) (channelName name : String)
    (arg : Val) : ServerState × List RawResponse :=
  match alGet channelName s.channels with
  | none => (collectPendingRequest s (.pPromise id channelName name arg), [])
  | some channel =>
    let outcome := channel.call s.ctx name arg
    let afterSet := { s with activeRequests := addActive s.activeRequests id }
    ({ afterSet with
        activeRequests := afterSet.activeRequests.filter fun i => decide (i ≠ id) },
      [settleResponse id outcome])

/-- Translation of ChannelServer.onEventListen (lines 500-519): an
unknown channel queues the request; otherwise the subscription
disposable is stored under the id. -/
def onEventListen (s : ServerState) (id : Nat) (channelName name : String)
    (arg : Val) : ServerState × List RawResponse :=
  match alGet channelName s.channels with
  | none => (collectPendingRequest s (.pEvent id channelName name arg), [])
  | some _ => ({ s with activeRequests := addActive s.activeRequests id }, [])

/-- Translation of ChannelServer.disposeActiveRequest (lines 521-528):
dispose and drop the stored handle when present; unknown ids are
silently ignored. -/
def disposeActiveRequest (s : ServerState) (id : Nat) : ServerState :=
  if id ∈ s.activeRequests then
    { s with activeRequests := s.activeRequests.filter fun i => decide (i ≠ id) }
  else s

/-- Translation of ChannelServer.registerChannel (lines 362-370): insert
the channel; the drain of the pending queue is scheduled as a deferred
task, modelled as the separate step flushPendingRequests. -/
def registerChannel (s : ServerState) (channelName : String)
    (channel : ServerChannel) : ServerState :=
  { s with channels := alSet channelName channel s.channels }

/-- Dispatch of one drained pending entry (the switch at lines 566-575). -/
def dispatchPending (s : ServerState) : PendReq → ServerState × List RawResponse
  | .pPromise id cn nm arg => onPromise s id cn nm arg
  | .pEvent id cn nm arg => onEventListen s id cn nm arg

/-- The loop of flushPendingRequests (lines 562-576): clear the timeout
of each entry, then re-dispatch it as if just received. -/
def flushLoop (s : ServerState) : List PendingEntry → ServerState × List RawResponse
  | [] => (s, [])
  | e :: rest =>
    let disarmed :=
      { s with armedTimers := s.armedTimers.filter fun p => decide (p.1 ≠ e.timerId) }
    let step1 := dispatchPending disarmed e.request
    let step2 := flushLoop step1.1 rest
    (step2.1, step1.2 ++ step2.2)

/-- Translation of ChannelServer.flushPendingRequests (lines 559-580):
drain the queue of a channel name, then delete the queue entry. -/
def flushPendingRequests (s : ServerState) (channelName : String) :
    ServerState × List RawResponse :=
  match alGet channelName s.pendingRequests with
  | none => (s, [])
  | some entries =>
    let drained := flushLoop s entries
    ({ drained.1 with pendingRequests := alRemove channelName drained.1.pendingRequests },
      drained.2)

/-- Translation of ChannelServer.dispose (lines 582-589): detach the
protocol listener, dispose every active-request handle and clear the
active-request map.  Nothing else is touched. -/
def serverDispose (s : ServerState) : ServerState :=
  { s with protocolListenerAttached := false, activeRequests := [] }

/-- Translation of the onRawMessage dispatch (lines 405-435), guarded by
the protocol listener installed at lines 352-354: once dispose has
detached the listener, inbound messages no longer reach the server. -/
def onServerMessage (s : ServerState) (request : RawRequest) :
    ServerState × List RawResponse :=
  if s.protocolListenerAttached then
    match request with
    | .promiseReq id cn nm arg => onPromise s id cn nm arg
    | .eventListen id cn nm arg => onEventListen s id cn nm arg
    | .promiseCancel id => (disposeActiveRequest s id, [])
    | .eventDispose id => (disposeActiveRequest s id, [])
  else (s, [])

/-! ### ChannelClient (ipc.ts lines 592-824) -/

/-- Kind of closure stored in the handlers map: the response handler of
requestPromise (lines 655-677) or the emitter-firing handler of
requestEvent (lines 739-741). -/
inductive HandlerKind where
  | promiseHandler : HandlerKind
  | eventHandler : HandlerKind
deriving DecidableEq

/-- The data of a response as the untyped handler reads response.data: a
plain value, or the structured record of a PromiseError. -/
inductive RespData where
  | plain : Val → RespData
  | errRec : ErrData → RespData
deriving DecidableEq

/-- The data carried by a response. -/
def RawResponse.respData : RawResponse → RespData
  | .init => .plain .vundefined
  | .promiseSuccess _ d => .plain d
  | .promiseError _ d => .errRec d
  | .promiseErrorObj _ d => .plain d
  | .eventFire _ d => .plain d

/-- The correlation id carried by a response; the Initialize response
has none. -/
def RawResponse.respId : RawResponse → Option Nat
  | .init => none
  | .promiseSuccess i _ => some i
  | .promiseError i _ => some i
  | .promiseErrorObj i _ => some i
  | .eventFire i _ => some i

/-- Observable effects of a ChannelClient: the onDidInitialize emitter
firing, a pending call settling, a local event emitter firing, a request
frame being sent. -/
inductive ClientAction where
  | firedInit : ClientAction
  | resolvedWith : Nat → Val → ClientAction
  | rejectedWithError : Nat → ErrData → ClientAction
  | rejectedWithObj : Nat → Val → ClientAction
  | firedEvent : Nat → RespData → ClientAction
  | sentRequest : RawRequest → ClientAction
deriving DecidableEq

/-- The mutable state of a ChannelClient (lines 593-599): idle is true
once the state machine left Uninitialized. -/
structure ClientState where
  idle : Bool
  handlers : List (Nat × HandlerKind)
  activeRequests : List Nat
  lastRequestId : Nat
deriving DecidableEq

/-- A freshly constructed ChannelClient (lines 607-611). -/
def newClient : ClientState :=
  { idle := false, handlers := [], activeRequests := [], lastRequestId := 0 }

/-- Effect of the promise response handler of lines 655-677 on a
response that reached it: a terminal response deletes the handler and
settles the call; anything else falls to the default branch. -/
def promiseHandlerStep (s : ClientState) (id : Nat) (r : RawResponse) :
    ClientState × List ClientAction :=
  match r with
  | .promiseSuccess _ d =>
    ({ s with handlers := alRemove id s.handlers }, [.resolvedWith id d])
  | .promiseError _ d =>
    ({ s with handlers := alRemove id s.handlers }, [.rejectedWithError id d])
  | .promiseErrorObj _ d =>
    ({ s with handlers := alRemove id s.handlers }, [.rejectedWithObj id d])
  | _ => (s, [])

/-- Translation of ChannelClient.onResponse (lines 795-806): an
Initialize response sets the state to Idle and fires onDidInitialize,
with no guard on the current state; every other response is handed to
the handler stored under its id, if any.  The event handler of line 739
fires the local emitter with the data of whatever response reaches it. -/
def clientOnResponse (s : ClientState) (r : RawResponse) :
    ClientState × List ClientAction :=
  match r with
  | .init => ({ s with idle := true }, [.firedInit])
  | _ =>
    match r.respId with
    | none => (s, [])
    | some id =>
      match alGet id s.handlers with
      | none => (s, [])
      | some .promiseHandler => promiseHandlerStep s id r
      | some .eventHandler => (s, [.firedEvent id r.respData])

/-- Processing of a sequence of inbound frames by one ChannelClient. -/
def clientRun (s : ClientState) : List RawResponse → ClientState × List ClientAction
  | [] => (s, [])
  | r :: rest =>
    let step1 := clientOnResponse s r
    let step2 := clientRun step1.1 rest
    (step2.1, step1.2 ++ step2.2)

/-- Translation of the initialized path of ChannelClient.requestPromise
(lines 631-681): allocate the next request id, and once whenInitialized
has resolved install the response handler under the id, add the cancel
disposable to the active requests and send the Promise frame. -/
def requestPromiseSend (s : ClientState) (channelName name : String)
    (arg : Val) : ClientState × List ClientAction :=
  let id := s.lastRequestId
  ({ s with lastRequestId := id + 1,
            handlers := alSet id HandlerKind.promiseHandler s.handlers,
            activeRequests := addActive s.activeRequests id },
   [.sentRequest (.promiseReq id channelName name arg)])

/-- One event subscription produced by requestEvent: its request id, the
captured frame fields, and whether the uninitializedPromise of line 715
is still pending. -/
structure EventSub where
  id : Nat
  channelName : String
  name : String
  arg : Val
  uninitializedPending : Bool
deriving DecidableEq

/-- Translation of ChannelClient.requestEvent at call time
(lines 706-744): allocate the id and install the event handler under it
(line 741); nothing is sent until a first listener subscribes. -/
def requestEvent (s : ClientState) (channelName name : String) (arg : Val) :
    ClientState × EventSub :=
  let id := s.lastRequestId
  ({ s with lastRequestId := id + 1,
            handlers := alSet id HandlerKind.eventHandler s.handlers },
   { id := id, channelName := channelName, name := name, arg := arg,
     uninitializedPending := false })

/-- Translation of onFirstListenerAdd (lines 718-727): when the client
is already initialized the wait resolves at once, the emitter joins the
active requests and the EventListen frame is sent; otherwise the wait
stays pending and nothing is sent yet. -/
def onFirstListenerAdd (s : ClientState) (sub : EventSub) :
    ClientState × EventSub × List ClientAction :=
  if s.idle then
    ({ s with activeRequests := addActive s.activeRequests sub.id },
     { sub with uninitializedPending := false },
     [.sentRequest (.eventListen sub.id sub.channelName sub.name sub.arg)])
  else (s, { sub with uninitializedPending := true }, [])

/-- Translation of onLastListenerRemove (lines 728-736): a still-pending
initialization wait is cancelled without traffic; otherwise the emitter
leaves the active requests and the EventDispose frame is sent.  The
handlers map is not touched on either path. -/
def onLastListenerRemove (s : ClientState) (sub : EventSub) :
    ClientState × EventSub × List ClientAction :=
  if sub.uninitializedPending then
    (s, { sub with uninitializedPending := false }, [])
  else
    ({ s with activeRequests := s.activeRequests.filter fun i => decide (i ≠ sub.id) },
     sub, [.sentRequest (.eventDispose sub.id)])

/-! ### IPCServer connection hub (ipc.ts lines 844-957) -/

/-- Dispose calls the IPCServer performs on objects it owns, as an
observable trace. -/
inductive HubAction where
  | disposedChannelServer : String → HubAction
  | disposedChannelClient : String → HubAction
  | disposedConnectionsEmitter : HubAction
deriving DecidableEq

/-- One Connection record (lines 831-834, 880-884): the peer context and
the per-connection ChannelServer and ChannelClient. -/
structure HubConnection where
  ctx : String
  channelServer : ServerState
  channelClient : ClientState

/-- The mutable state of an IPCServer (lines 851-853): the hub-level
channel registry (names suffice for the claims) and the connection set. -/
structure HubState where
  channels : List String
  connections : List HubConnection

/-- Translation of IPCServer.dispose (lines 952-957): clear the channel
registry, clear the connection set and dispose the connections emitter.
No dispose call is made on any ChannelServer or ChannelClient. -/
def ipcServerDispose (_s : HubState) : HubState × List HubAction :=
  ({ channels := [], connections := [] }, [.disposedConnectionsEmitter])

/-- Translation of the onDidClientDisconnect handler installed per
connection (lines 888-892): dispose the ChannelServer and the
ChannelClient of that connection, then remove it from the set (one
connection per peer context). -/
def onClientDisconnect (s : HubState) (c : HubConnection) :
    HubState × List HubAction :=
  ({ s with connections := s.connections.filter fun c2 => c2.ctx ≠ c.ctx },
   [.disposedChannelServer c.ctx, .disposedChannelClient c.ctx])

/-! ### Auxiliary predicates and concrete scenario states -/

/-- A terminal response for a given Promise request id: PromiseSuccess,
PromiseError or PromiseErrorObj carrying that id. -/
def terminalFor (id : Nat) : RawResponse → Prop
  | .promiseSuccess i _ => i = id
  | .promiseError i _ => i = id
  | .promiseErrorObj i _ => i = id
  | _ => False

/-- A channel that resolves every call with its argument. -/
def echoChannel : ServerChannel := { call := fun _ _ arg => .resolved arg }

/-- A fresh ChannelServer with the default 1000 ms timeout. -/
def exServer0 : ServerState := (newServer "main" 1000).1

/-- The fresh server after a Promise request for the unregistered
channel svc arrived: the request is queued and its timer armed. -/
def exServer1 : ServerState :=
  (onServerMessage exServer0 (.promiseReq 7 "svc" "ping" (.vstr "hi"))).1

/-- The queued server after dispose. -/
def exDisposed : ServerState := serverDispose exServer1

/-- The fresh server with the echo channel registered under svc. -/
def exServer2 : ServerState := registerChannel exServer0 "svc" echoChannel

/-- An already initialized ChannelClient. -/
def exClientIdle : ClientState := { newClient with idle := true }

/-- The initialized client after a listen call on channel svc. -/
def exEventStep1 : ClientState × EventSub :=
  requestEvent exClientIdle "svc" "onTick" .vundefined

/-- The same client after the first subscriber attached: the EventListen
frame went out. -/
def exEventStep2 : ClientState × EventSub × List ClientAction :=
  onFirstListenerAdd exEventStep1.1 exEventStep1.2

/-- The same client after the last subscriber detached. -/
def exEventStep3 : ClientState × EventSub × List ClientAction :=
  onLastListenerRemove exEventStep2.1 exEventStep2.2.1

/-- A concrete wire value covering the claimed kinds: an array holding a
string, a VSBuffer, undefined and a JSON record. -/
def exData : Data :=
  .arr [.str "hi", .vsbuf [0, 255], .undefined, .obj "\x7b\x22a\x22:1\x7d"]

/-! ### Association-list lemmas -/

theorem alGet_alSet_self {κ β : Type} [DecidableEq κ] (k : κ) (v : β)
    (l : List (κ × β)) : alGet k (alSet k v l) = some v := by
  induction l with
  | nil => simp [alSet, alGet]
  | cons p rest ih =>
    obtain ⟨k1, v1⟩ := p
    by_cases h : k1 = k
    · simp [alSet, alGet, h]
    · simp [alSet, alGet, h, ih]

theorem alGet_alRemove_self {κ β : Type} [DecidableEq κ] (k : κ)
    (l : List (κ × β)) : alGet k (alRemove k l) = none := by
  induction l with
  | nil => simp [alRemove, alGet]
  | cons p rest ih =>
    obtain ⟨k1, v1⟩ := p
    by_cases h : k1 = k
    · simpa [alRemove, List.filter_cons, h] using ih
    · simpa [alRemove, List.filter_cons, h, alGet] using ih

/-! ### C9: IPCServer.dispose and connection teardown -/

/-- C9: IPCServer.dispose clears the hub-level channel registry and
empties the connection set while making no dispose call on any
ChannelServer or ChannelClient of a connection; those two dispose calls
happen exactly when the onDidClientDisconnect handler of a connection
runs. -/
theorem c9_hub_dispose_leaves_connections_alive (s : HubState) :
    (ipcServerDispose s).1.channels = [] ∧
    (ipcServerDispose s).1.connections = [] ∧
    (∀ ctx : String,
      HubAction.disposedChannelServer ctx ∉ (ipcServerDispose s).2 ∧
      HubAction.disposedChannelClient ctx ∉ (ipcServerDispose s).2) ∧
    ∀ (s2 : HubState) (c : HubConnection),
      (onClientDisconnect s2 c).2 =
        [.disposedChannelServer c.ctx, .disposedChannelClient c.ctx] := by
  refine ⟨rfl, rfl, ?_, fun s2 c => rfl⟩
  intro ctx
  exact ⟨by simp [ipcServerDispose], by simp [ipcServerDispose]⟩

/-! ### C6: the unknown-channel timeout response -/

/-- C6: when the timer armed for a Promise request queued under an
unregistered channel name fires, the server responds with a PromiseError
whose data carries the name Unknown channel and the message
Channel name (quoted channel name) timed out after (delay)ms. -/
theorem c6_unknown_channel_timeout_message (s : ServerState) (tid id : Nat)
    (channelName name : String) (arg : Val)
    (h : alGet tid s.armedTimers = some (.pPromise id channelName name arg)) :
    (fireTimer s tid).2 =
      [.promiseError id
        { message := "Channel name \x27" ++ channelName ++
            "\x27 timed out after " ++ toString s.timeoutDelay ++ "ms",
          name := "Unknown channel",
          stack := .undefined }] := by
  simp [fireTimer, h, pendingTimeoutResponses]

/-- Witness for C6 on a concrete queued request. -/
theorem c6_witness :
    alGet 0 exServer1.armedTimers = some (.pPromise 7 "svc" "ping" (.vstr "hi")) ∧
    (fireTimer exServer1 0).2 =
      [.promiseError 7
        { message := "Channel name \x27svc\x27 timed out after 1000ms",
          name := "Unknown channel",
          stack := .undefined }] := by
  refine ⟨by decide, ?_⟩
  exact c6_unknown_channel_timeout_message exServer1 0 7 "svc" "ping" (.vstr "hi")
    (by decide)

/-! ### C1: timeout does not drop the pending entry -/

/-- C1 counterexample: for the concrete Promise request with id 7 queued
under the unregistered channel svc, firing its timeout sends the
PromiseError but leaves the entry in the pending queue, and a later
registerChannel for svc re-dispatches it (a second response for id 7
goes out).  This contradicts the claim that the entry is removed when
the timeout fires. -/
theorem c1_counterexample :
    (fireTimer exServer1 0).2 =
      [.promiseError 7
        ⟨"Channel name \x27svc\x27 timed out after 1000ms", "Unknown channel",
          .undefined⟩] ∧
    alGet "svc" (fireTimer exServer1 0).1.pendingRequests =
      some [⟨.pPromise 7 "svc" "ping" (.vstr "hi"), 0⟩] ∧
    (flushPendingRequests
        (registerChannel (fireTimer exServer1 0).1 "svc" echoChannel)
        "svc").2 = [.promiseSuccess 7 (.vstr "hi")] := by
  exact ⟨by decide, by decide, by decide⟩

/-- C1 amended: when the timeout of a queued Promise request fires, a
PromiseError is sent to the caller, but the entry is not removed from
the pending queue (the whole pending-requests map is untouched), so a
later registerChannel for that name re-dispatches it. -/
theorem c1_amended_timeout_keeps_entry (s : ServerState) (tid id : Nat)
    (channelName name : String) (arg : Val)
    (h : alGet tid s.armedTimers = some (.pPromise id channelName name arg)) :
    (∃ e : ErrData, (fireTimer s tid).2 = [.promiseError id e]) ∧
    (fireTimer s tid).1.pendingRequests = s.pendingRequests := by
  constructor
  · exact ⟨⟨"Channel name \x27" ++ channelName ++ "\x27 timed out after " ++
      toString s.timeoutDelay ++ "ms", "Unknown channel", .undefined⟩,
      by simp [fireTimer, h, pendingTimeoutResponses]⟩
  · simp [fireTimer, h]

/-- Witness for the amended C1 on the concrete queued request. -/
theorem c1_amended_witness :
    alGet 0 exServer1.armedTimers = some (.pPromise 7 "svc" "ping" (.vstr "hi")) ∧
    ((∃ e : ErrData, (fireTimer exServer1 0).2 = [.promiseError 7 e]) ∧
      (fireTimer exServer1 0).1.pendingRequests = exServer1.pendingRequests) := by
  refine ⟨by decide, ?_⟩
  exact c1_amended_timeout_keeps_entry exServer1 0 7 "svc" "ping" (.vstr "hi")
    (by decide)

/-! ### C4: ChannelServer.dispose leaves pending timers armed -/

/-- C4 counterexample: after dispose of the concrete server that holds a
queued Promise request, the transport listener is detached and the
active requests are cleared, yet the pending-request timeout still fires
and sends a PromiseError.  This contradicts the claim that all server
state is cleared and no pending-request timeout can fire after
dispose. -/
theorem c4_counterexample :
    exDisposed.protocolListenerAttached = false ∧
    exDisposed.activeRequests = [] ∧
    (fireTimer exDisposed 0).2 =
      [.promiseError 7
        ⟨"Channel name \x27svc\x27 timed out after 1000ms", "Unknown channel",
          .undefined⟩] := by
  exact ⟨by decide, by decide, by decide⟩

/-- C4 amended: ChannelServer.dispose detaches the transport listener,
disposes every active-request handle and clears the active-request map;
the channel registry, the pending-requests queue and its armed timers
are left untouched, so a pending-request timeout can still fire
afterwards. -/
theorem c4_amended_dispose_scope (s : ServerState) :
    (serverDispose s).protocolListenerAttached = false ∧
    (serverDispose s).activeRequests = [] ∧
    (serverDispose s).pendingRequests = s.pendingRequests ∧
    (serverDispose s).armedTimers = s.armedTimers ∧
    (serverDispose s).channels = s.channels := by
  simp [serverDispose]

/-! ### C7: responses of a dispatched Promise request -/

/-- C7: for a Promise request dispatched to a registered channel, a call
resolving with data yields PromiseSuccess with that data; a rejection
with an Error instance yields PromiseError carrying message, name, and a
stack that is the newline-split stack string, or the raw stack when it
has no split method, or undefined when absent; a rejection with a
non-Error value yields PromiseErrorObj with the raw value. -/
theorem c7_promise_outcome_responses (s : ServerState) (ch : ServerChannel)
    (id : Nat) (channelName name : String) (arg : Val)
    (hch : alGet channelName s.channels = some ch) :
    (∀ v, ch.call s.ctx name arg = .resolved v →
      (onPromise s id channelName name arg).2 = [.promiseSuccess id v]) ∧
    (∀ e : JsError, ch.call s.ctx name arg = .rejected (.errVal e) →
      (onPromise s id channelName name arg).2 =
        [.promiseError id
          { message := e.message, name := e.name,
            stack :=
              match e.stack with
              | none => .undefined
              | some (.strStack st) => .lines (jsSplitNewline st)
              | some (.oddStack v) => .raw v }]) ∧
    (∀ v, ch.call s.ctx name arg = .rejected (.objVal v) →
      (onPromise s id channelName name arg).2 = [.promiseErrorObj id v]) := by
  refine ⟨?_, ?_, ?_⟩
  · intro v hv
    simp [onPromise, hch, hv, settleResponse]
  · intro e he
    rcases hst : e.stack with _ | sr
    · simp [onPromise, hch, he, settleResponse, stackFieldOf, hst]
    · cases sr <;> simp [onPromise, hch, he, settleResponse, stackFieldOf, hst]
  · intro v hv
    simp [onPromise, hch, hv, settleResponse]

/-- Witness for C7: the echo channel registered under svc resolves a
ping with its argument and the server sends the PromiseSuccess. -/
theorem c7_witness :
    alGet "svc" exServer2.channels = some echoChannel ∧
    (onPromise exServer2 3 "svc" "ping" (.vstr "x")).2 =
      [.promiseSuccess 3 (.vstr "x")] := by
  refine ⟨rfl, ?_⟩
  exact (c7_promise_outcome_responses exServer2 echoChannel 3 "svc" "ping"
    (.vstr "x") rfl).1 (.vstr "x") rfl

/-! ### C2: onDidInitialize fires once per Initialize frame -/

/-- C2 counterexample: a fresh ChannelClient that receives two
Initialize frames fires onDidInitialize twice, not exactly once; the
handler at ipc.ts lines 796-800 has no guard on the current state. -/
theorem c2_counterexample :
    (clientRun newClient [.init, .init]).2.count ClientAction.firedInit = 2 ∧
    ¬ (clientRun newClient [.init, .init]).2.count ClientAction.firedInit = 1 := by
  exact ⟨by decide, by decide⟩

/-- Every single inbound frame fires onDidInitialize exactly when it is
an Initialize frame. -/
theorem clientOnResponse_initCount (s : ClientState) (r : RawResponse) :
    (clientOnResponse s r).2.count ClientAction.firedInit =
      if r = RawResponse.init then 1 else 0 := by
  cases r with
  | init => simp [clientOnResponse]
  | promiseSuccess i d =>
    rcases h : alGet i s.handlers with _ | k
    · simp [clientOnResponse, RawResponse.respId, h]
    · cases k <;>
        simp [clientOnResponse, RawResponse.respId, h, promiseHandlerStep,
          List.count_cons]
  | promiseError i d =>
    rcases h : alGet i s.handlers with _ | k
    · simp [clientOnResponse, RawResponse.respId, h]
    · cases k <;>
        simp [clientOnResponse, RawResponse.respId, h, promiseHandlerStep,
          List.count_cons]
  | promiseErrorObj i d =>
    rcases h : alGet i s.handlers with _ | k
    · simp [clientOnResponse, RawResponse.respId, h]
    · cases k <;>
        simp [clientOnResponse, RawResponse.respId, h, promiseHandlerStep,
          List.count_cons]
  | eventFire i d =>
    rcases h : alGet i s.handlers with _ | k
    · simp [clientOnResponse, RawResponse.respId, h]
    · cases k <;>
        simp [clientOnResponse, RawResponse.respId, h, promiseHandlerStep,
          List.count_cons]

/-- C2 amended: over any sequence of inbound frames processed by one
ChannelClient, onDidInitialize fires once per Initialize frame received:
on the first Initialize frame and again on every later one. -/
theorem c2_amended_init_fires_per_frame (s : ClientState)
    (rs : List RawResponse) :
    (clientRun s rs).2.count ClientAction.firedInit =
      rs.count RawResponse.init := by
  induction rs generalizing s with
  | nil => simp [clientRun]
  | cons r rest ih =>
    simp only [clientRun, List.count_append, List.count_cons, ih,
      clientOnResponse_initCount]
    by_cases hr : r = RawResponse.init <;> simp [hr] <;> try omega

/-! ### C3: last-subscriber teardown keeps the handler -/

/-- C3 counterexample: on the initialized concrete client, removing the
last subscriber of the svc event sends EventDispose(0) but the response
handler under id 0 is still in the handlers map, contradicting the
claim that it is removed. -/
theorem c3_counterexample :
    exEventStep3.2.2 = [.sentRequest (.eventDispose 0)] ∧
    alGet 0 exEventStep3.1.handlers = some HandlerKind.eventHandler := by
  exact ⟨by decide, by decide⟩

/-- C3 amended: when the last subscriber is removed after initialization
has completed, the client sends EventDispose(id) and removes the emitter
from its active requests; the response handler registered under id stays
in the handlers map. -/
theorem c3_amended_dispose_sent_handler_kept (s : ClientState) (sub : EventSub)
    (h : sub.uninitializedPending = false) :
    (onLastListenerRemove s sub).2.2 = [.sentRequest (.eventDispose sub.id)] ∧
    (onLastListenerRemove s sub).1.handlers = s.handlers ∧
    (onLastListenerRemove s sub).1.activeRequests =
      s.activeRequests.filter fun i => decide (i ≠ sub.id) := by
  simp [onLastListenerRemove, h]

/-- Witness for the amended C3 on the concrete subscription. -/
theorem c3_amended_witness :
    exEventStep2.2.1.uninitializedPending = false ∧
    ((onLastListenerRemove exEventStep2.1 exEventStep2.2.1).2.2 =
        [.sentRequest (.eventDispose exEventStep2.2.1.id)] ∧
      (onLastListenerRemove exEventStep2.1 exEventStep2.2.1).1.handlers =
        exEventStep2.1.handlers ∧
      (onLastListenerRemove exEventStep2.1 exEventStep2.2.1).1.activeRequests =
        exEventStep2.1.activeRequests.filter fun i =>
          decide (i ≠ exEventStep2.2.1.id)) := by
  refine ⟨by decide, ?_⟩
  exact c3_amended_dispose_sent_handler_kept exEventStep2.1 exEventStep2.2.1
    (by decide)

/-! ### C5: at most one terminal response acted upon -/

/-- A response whose id has no stored handler is ignored: no state
change and no action. -/
theorem clientOnResponse_no_handler (s : ClientState) (id : Nat)
    (r : RawResponse) (hid : r.respId = some id)
    (h : alGet id s.handlers = none) : clientOnResponse s r = (s, []) := by
  cases r with
  | init => simp [RawResponse.respId] at hid
  | promiseSuccess i d =>
    have hi : i = id := by simpa [RawResponse.respId] using hid
    subst hi
    simp [clientOnResponse, RawResponse.respId, h]
  | promiseError i d =>
    have hi : i = id := by simpa [RawResponse.respId] using hid
    subst hi
    simp [clientOnResponse, RawResponse.respId, h]
  | promiseErrorObj i d =>
    have hi : i = id := by simpa [RawResponse.respId] using hid
    subst hi
    simp [clientOnResponse, RawResponse.respId, h]
  | eventFire i d =>
    have hi : i = id := by simpa [RawResponse.respId] using hid
    subst hi
    simp [clientOnResponse, RawResponse.respId, h]

/-- C5: for a Promise request id issued by a ChannelClient, the first
terminal response (PromiseSuccess, PromiseError or PromiseErrorObj) for
that id is acted upon and removes the handler stored under the id, and
any further response carrying the same id is ignored: it changes nothing
and produces no action. -/
theorem c5_terminal_response_once (s : ClientState) (channelName name : String)
    (arg : Val) (r1 : RawResponse)
    (h1 : terminalFor s.lastRequestId r1) :
    (clientOnResponse (requestPromiseSend s channelName name arg).1 r1).2 ≠ [] ∧
    alGet s.lastRequestId
      (clientOnResponse (requestPromiseSend s channelName name arg).1 r1).1.handlers =
        none ∧
    ∀ r2 : RawResponse, r2.respId = some s.lastRequestId →
      clientOnResponse
        (clientOnResponse (requestPromiseSend s channelName name arg).1 r1).1 r2 =
      ((clientOnResponse (requestPromiseSend s channelName name arg).1 r1).1, []) := by
  have hget : alGet s.lastRequestId
      (requestPromiseSend s channelName name arg).1.handlers =
      some HandlerKind.promiseHandler := by
    simp [requestPromiseSend, alGet_alSet_self]
  have hmain :
      (clientOnResponse (requestPromiseSend s channelName name arg).1 r1).2 ≠ [] ∧
      (clientOnResponse (requestPromiseSend s channelName name arg).1 r1).1.handlers =
        alRemove s.lastRequestId
          (requestPromiseSend s channelName name arg).1.handlers := by
    cases r1 with
    | init => exact absurd h1 (by simp [terminalFor])
    | promiseSuccess i d =>
      have hi : i = s.lastRequestId := h1
      subst hi
      simp [clientOnResponse, RawResponse.respId, hget, promiseHandlerStep]
    | promiseError i d =>
      have hi : i = s.lastRequestId := h1
      subst hi
      simp [clientOnResponse, RawResponse.respId, hget, promiseHandlerStep]
    | promiseErrorObj i d =>
      have hi : i = s.lastRequestId := h1
      subst hi
      simp [clientOnResponse, RawResponse.respId, hget, promiseHandlerStep]
    | eventFire i d => exact absurd h1 (by simp [terminalFor])
  have hnone : alGet s.lastRequestId
      (clientOnResponse (requestPromiseSend s channelName name arg).1 r1).1.handlers =
      none := by
    rw [hmain.2]
    exact alGet_alRemove_self _ _
  refine ⟨hmain.1, hnone, ?_⟩
  intro r2 hr2
  exact clientOnResponse_no_handler _ s.lastRequestId r2 hr2 hnone

/-- Witness for C5: the initialized concrete client issues request 0 and
a first PromiseSuccess for id 0 settles it; a duplicate is ignored. -/
theorem c5_witness :
    terminalFor exClientIdle.lastRequestId (.promiseSuccess 0 (.vstr "r")) ∧
    ((clientOnResponse (requestPromiseSend exClientIdle "svc" "ping" .vundefined).1
        (.promiseSuccess 0 (.vstr "r"))).2 ≠ [] ∧
      alGet exClientIdle.lastRequestId
        (clientOnResponse (requestPromiseSend exClientIdle "svc" "ping" .vundefined).1
          (.promiseSuccess 0 (.vstr "r"))).1.handlers = none ∧
      ∀ r2 : RawResponse, r2.respId = some exClientIdle.lastRequestId →
        clientOnResponse
          (clientOnResponse (requestPromiseSend exClientIdle "svc" "ping" .vundefined).1
            (.promiseSuccess 0 (.vstr "r"))).1 r2 =
        ((clientOnResponse (requestPromiseSend exClientIdle "svc" "ping" .vundefined).1
            (.promiseSuccess 0 (.vstr "r"))).1, [])) := by
  refine ⟨by simp [terminalFor, exClientIdle, newClient], ?_⟩
  exact c5_terminal_response_once exClientIdle "svc" "ping" .vundefined
    (.promiseSuccess 0 (.vstr "r")) (by simp [terminalFor, exClientIdle, newClient])

/-! ### Codec lemmas: UTF-8 and size round trips -/

theorem char_toNat_lt (c : Char) : c.toNat < 0x110000 := by
  have h := c.valid
  simp only [Char.toNat]
  rcases h with h | h
  · omega
  · omega

theorem utf8DecodeOne_encode (c : Nat) (h : c < 0x110000) (rest : List Nat) :
    utf8DecodeOne (utf8EncodeNat c ++ rest) = some (c, rest) := by
  by_cases h1 : c < 0x80
  · simp [utf8EncodeNat, h1, utf8DecodeOne]
  · by_cases h2 : c < 0x800
    · have e1 : ¬ (0xC0 + c / 0x40 < 0x80) := by omega
      have e2 : ¬ (0xC0 + c / 0x40 < 0xC0) := by omega
      have e3 : 0xC0 + c / 0x40 < 0xE0 := by omega
      simp [utf8EncodeNat, h1, h2, utf8DecodeOne, e1, e2, e3]
      omega
    · by_cases h3 : c < 0x10000
      · have e1 : ¬ (0xE0 + c / 0x1000 < 0x80) := by omega
        have e2 : ¬ (0xE0 + c / 0x1000 < 0xC0) := by omega
        have e3 : ¬ (0xE0 + c / 0x1000 < 0xE0) := by omega
        have e4 : 0xE0 + c / 0x1000 < 0xF0 := by omega
        simp [utf8EncodeNat, h1, h2, h3, utf8DecodeOne, e1, e2, e3, e4]
        omega
      · have e1 : ¬ (0xF0 + c / 0x40000 < 0x80) := by omega
        have e2 : ¬ (0xF0 + c / 0x40000 < 0xC0) := by omega
        have e3 : ¬ (0xF0 + c / 0x40000 < 0xE0) := by omega
        have e4 : ¬ (0xF0 + c / 0x40000 < 0xF0) := by omega
        simp [utf8EncodeNat, h1, h2, h3, utf8DecodeOne, e1, e2, e3, e4]
        omega

theorem utf8EncodeNat_ne_nil (c : Nat) : utf8EncodeNat c ≠ [] := by
  unfold utf8EncodeNat
  split_ifs <;> simp

theorem utf8EncodeNat_length_pos (c : Nat) : 1 ≤ (utf8EncodeNat c).length := by
  unfold utf8EncodeNat
  split_ifs <;> simp

theorem length_le_flatMap_utf8 (cs : List Char) :
    cs.length ≤ (cs.flatMap fun c => utf8EncodeNat c.toNat).length := by
  induction cs with
  | nil => simp
  | cons c rest ih =>
    have h := utf8EncodeNat_length_pos c.toNat
    simp only [List.flatMap_cons, List.length_append, List.length_cons]
    omega

theorem utf8DecodeChars_encode (cs : List Char) :
    ∀ fuel : Nat, cs.length ≤ fuel →
      utf8DecodeChars fuel (cs.flatMap fun c => utf8EncodeNat c.toNat) =
        some cs := by
  induction cs with
  | nil =>
    intro fuel _
    simp [utf8DecodeChars]
  | cons c rest ih =>
    intro fuel hf
    match fuel with
    | 0 => simp at hf
    | f + 1 =>
      obtain ⟨b, bs, hcb⟩ :
          ∃ b bs, utf8EncodeNat c.toNat = b :: bs := by
        rcases he : utf8EncodeNat c.toNat with _ | ⟨b, bs⟩
        · exact absurd he (utf8EncodeNat_ne_nil c.toNat)
        · exact ⟨b, bs, rfl⟩
      have hdec : utf8DecodeOne ((b :: bs) ++
          (rest.flatMap fun c => utf8EncodeNat c.toNat)) =
          some (c.toNat, rest.flatMap fun c => utf8EncodeNat c.toNat) := by
        rw [← hcb]
        exact utf8DecodeOne_encode c.toNat (char_toNat_lt c) _
      have hrec : utf8DecodeChars f
          (rest.flatMap fun c => utf8EncodeNat c.toNat) = some rest :=
        ih f (by simpa using Nat.lt_succ_iff.mp (Nat.lt_of_lt_of_le
          (Nat.lt_succ_of_le (Nat.le_refl _)) hf))
      calc utf8DecodeChars (f + 1)
            ((c :: rest).flatMap fun c => utf8EncodeNat c.toNat)
          = utf8DecodeChars (f + 1)
            (b :: (bs ++ (rest.flatMap fun c => utf8EncodeNat c.toNat))) := by
            rw [List.flatMap_cons, hcb, List.cons_append]
        _ = some (Char.ofNat c.toNat :: rest) := by
            rw [utf8DecodeChars]
            rw [← List.cons_append, hdec]
            simp [hrec]
        _ = some (c :: rest) := by rw [Char.ofNat_toNat]

theorem utf8DecodeBytes_encode (s : String) :
    utf8DecodeBytes (utf8Encode s) = some s := by
  have h := utf8DecodeChars_encode s.data (utf8Encode s).length
    (length_le_flatMap_utf8 s.data)
  simp only [utf8DecodeBytes, utf8Encode] at h ⊢
  rw [h]
  rfl

theorem readSize_write (n : Nat) (h : n < 2 ^ 32) (rest : List Nat) :
    readSize (writeUInt32BE n ++ rest) = some (n, rest) := by
  simp [writeUInt32BE, readSize]
  omega

theorem readBytes_append (l rest : List Nat) :
    readBytes l.length (l ++ rest) = some (l, rest) := by
  simp [readBytes, List.take_left, List.drop_left]

/-! ### C8: the codec round trip -/

/-- Reading back a serialized list of well-formed values yields the list
and leaves the remaining bytes untouched. -/
theorem deserializeMany_serializeElems (fuel : Nat) :
    ∀ (ds : List Data) (rest : List Nat), sizeOkList ds = true →
      fuelNeededList ds ≤ fuel →
      deserializeMany fuel ds.length (serializeElems ds ++ rest) =
        some (ds, rest) := by
  induction fuel using Nat.strong_induction_on with
  | _ fuel ih =>
    intro ds rest hok hfuel
    match ds with
    | [] => simp [serializeElems, deserializeMany]
    | d :: ds2 =>
      have hd1 : 1 ≤ fuelNeeded d := by
        cases d <;> simp [fuelNeeded]
      have hokd : sizeOk d = true ∧ sizeOkList ds2 = true := by
        simpa [sizeOkList, Bool.and_eq_true] using hok
      have hfl : fuelNeeded d + fuelNeededList ds2 ≤ fuel := by
        simpa [fuelNeededList] using hfuel
      cases fuel with
      | zero => omega
      | succ f =>
        have hffl : fuelNeededList ds2 ≤ f := by omega
        have hrec := ih f (Nat.lt_succ_self f) ds2 rest hokd.2 hffl
        cases d with
        | undefined =>
          simp [serializeElems, serializeValue, List.cons_append,
            deserializeMany, hrec]
        | str s =>
          have hL : (utf8Encode s).length < 2 ^ 32 := by
            simpa [sizeOk] using hokd.1
          have hsz := readSize_write (utf8Encode s).length hL
            (utf8Encode s ++ (serializeElems ds2 ++ rest))
          have hrb := readBytes_append (utf8Encode s)
            (serializeElems ds2 ++ rest)
          have hdec := utf8DecodeBytes_encode s
          simp [serializeElems, serializeValue, List.cons_append,
            List.append_assoc, deserializeMany, hsz, hrb, hdec, hrec]
        | buf bs =>
          have hL : bs.length < 2 ^ 32 := by
            have h := hokd.1
            simp [sizeOk, Bool.and_eq_true] at h
            exact h.1
          have hsz := readSize_write bs.length hL
            (bs ++ (serializeElems ds2 ++ rest))
          have hrb := readBytes_append bs (serializeElems ds2 ++ rest)
          simp [serializeElems, serializeValue, List.cons_append,
            List.append_assoc, deserializeMany, hsz, hrb, hrec]
        | vsbuf bs =>
          have hL : bs.length < 2 ^ 32 := by
            have h := hokd.1
            simp [sizeOk, Bool.and_eq_true] at h
            exact h.1
          have hsz := readSize_write bs.length hL
            (bs ++ (serializeElems ds2 ++ rest))
          have hrb := readBytes_append bs (serializeElems ds2 ++ rest)
          simp [serializeElems, serializeValue, List.cons_append,
            List.append_assoc, deserializeMany, hsz, hrb, hrec]
        | arr xs =>
          have hsize : xs.length < 2 ^ 32 ∧ sizeOkList xs = true := by
            have h := hokd.1
            simp [sizeOk, Bool.and_eq_true] at h
            exact h
          have hfx : fuelNeededList xs ≤ f := by
            have h : fuelNeeded (Data.arr xs) = 1 + fuelNeededList xs := by
              simp [fuelNeeded]
            omega
          have hxs := ih f (Nat.lt_succ_self f) xs
            (serializeElems ds2 ++ rest) hsize.2 hfx
          have hsz := readSize_write xs.length hsize.1
            (serializeElems xs ++ (serializeElems ds2 ++ rest))
          simp [serializeElems, serializeValue, List.cons_append,
            List.append_assoc, deserializeMany, hsz, hxs, hrec]
        | obj j =>
          have hL : (utf8Encode j).length < 2 ^ 32 := by
            simpa [sizeOk] using hokd.1
          have hsz := readSize_write (utf8Encode j).length hL
            (utf8Encode j ++ (serializeElems ds2 ++ rest))
          have hrb := readBytes_append (utf8Encode j)
            (serializeElems ds2 ++ rest)
          have hdec := utf8DecodeBytes_encode j
          simp [serializeElems, serializeValue, List.cons_append,
            List.append_assoc, deserializeMany, hsz, hrb, hdec, hrec]

/-- C8: deserializing the bytes produced by serialize yields the value
back, for undefined, strings, buffers, arrays of such values and JSON
records (the obj case carries the JSON text, which is the round trip
modulo JSON semantics), for every well-formed value and enough fuel. -/
theorem c8_serialize_deserialize_roundtrip (d : Data) (rest : List Nat)
    (fuel : Nat) (hok : sizeOk d = true) (hfuel : fuelNeeded d ≤ fuel) :
    deserialize fuel (serializeValue d ++ rest) = some (d, rest) := by
  have h := deserializeMany_serializeElems fuel [d] rest
    (by simp [sizeOkList, hok]) (by simp [fuelNeededList]; omega)
  simp only [serializeElems, List.append_nil, List.length_cons,
    List.length_nil] at h
  simp [deserialize, h]

/-- Witness for C8 on a concrete array of the claimed kinds. -/
theorem c8_witness :
    sizeOk exData = true ∧ fuelNeeded exData ≤ 10 ∧
    deserialize 10 (serializeValue exData ++ [9]) = some (exData, [9]) := by
  refine ⟨by decide, by decide, ?_⟩
  exact c8_serialize_deserialize_roundtrip exData [9] 10 (by decide) (by decide)

/-! ### C10: deserialize is total over the type tag -/

/-- C10: on an input whose leading tag byte is none of the six defined
DataType values, deserialize returns the value undefined (consuming only
the tag byte) instead of failing. -/
theorem c10_unknown_tag_returns_undefined (tag : Nat) (rest : List Nat)
    (fuel : Nat) (htag : 6 ≤ tag) (hfuel : 1 ≤ fuel) :
    deserialize fuel (tag :: rest) = some (Data.undefined, rest) := by
  cases fuel with
  | zero => omega
  | succ f =>
    have h0 : ¬ (tag = 0) := by omega
    have h1 : ¬ (tag = 1) := by omega
    have h2 : ¬ (tag = 2) := by omega
    have h3 : ¬ (tag = 3) := by omega
    have h4 : ¬ (tag = 4) := by omega
    have h5 : ¬ (tag = 5) := by omega
    simp [deserialize, deserializeMany, h0, h1, h2, h3, h4, h5]

/-- Witness for C10 at the concrete tag 9. -/
theorem c10_witness :
    6 ≤ 9 ∧ 1 ≤ 1 ∧ deserialize 1 (9 :: [1, 2]) = some (Data.undefined, [1, 2]) := by
  exact ⟨by decide, by decide,
    c10_unknown_tag_returns_undefined 9 [1, 2] 1 (by decide) (by decide)⟩

end ElectronSprout
